import Mathlib

/-!
Shallow embedding of the Cluster Resource Availability Resolver from
`iml-api/src/graphql/mod.rs` (integrated-manager-for-lustre).

The relational tables read by the resolver's SQL queries are modelled as
lists of records in a `Db` snapshot; the SQL joins, `GROUP BY`,
`array_agg(DISTINCT ...)` and `ORDER BY` clauses are modelled as list
comprehensions, key-grouping, dedup, and sorting; the Rust stream
combinators (`try_filter`, `map_ok`, `retain`, itertools `group_by`) are
modelled as the corresponding list operations.  Fallible GraphQL resolver
methods return `Except String`.
-/

/-- Row of the `target` table (the fields selected by `QueryRoot::targets`,
which is the wire `TargetRecord`). -/
structure TargetRecord where
  id : Int
  state : String
  name : String
  active_host_id : Option Int
  host_ids : List Int
  filesystems : List String
  uuid : String
  mount_path : Option String
  dev_path : Option String
  fs_type : Option String
deriving DecidableEq

/-- Row of the `corosync_resource` table (the columns used by the resolver). -/
structure CorosyncResource where
  name : String
  cluster_id : Int
  mount_point : Option String
deriving DecidableEq

/-- Row of the `corosync_resource_managed_host` table. -/
structure CorosyncResourceManagedHost where
  corosync_resource_id : String
  cluster_id : Int
  host_id : Int
deriving DecidableEq

/-- Row of the `corosync_resource_bans` table (struct `BannedResource`). -/
structure BannedResource where
  id : Int
  name : String
  cluster_id : Int
  resource : String
  node : String
  weight : Int
  master_only : Bool
deriving DecidableEq

/-- Row of the `corosync_node_managed_host` table: `(corosync_node_id).name`,
`cluster_id`, `host_id`. -/
structure CorosyncNodeManagedHost where
  node_name : String
  cluster_id : Int
  host_id : Int
deriving DecidableEq

/-- Row of the `chroma_core_managedfilesystem` table (columns used by
`fs_id_by_name`). -/
structure ManagedFilesystem where
  id : Int
  name : String
  not_deleted : Bool
deriving DecidableEq

/-- Row of the `lnet` table: a host and the ids of its nids. -/
structure LnetRecord where
  host_id : Int
  nids : List Int
deriving DecidableEq

/-- Row of the `nid` table. -/
structure NidRecord where
  id : Int
  nid : String
  host_id : Int
deriving DecidableEq

/-- An in-memory snapshot of the relations the resolver reads, plus the
host-id to FQDN resolution performed by `fqdn_by_host_id` (`none` models a
lookup failure, which the code drops with `filter_map(|x| x.ok())`). -/
structure Db where
  targets : List TargetRecord
  corosync_resources : List CorosyncResource
  corosync_resource_managed_hosts : List CorosyncResourceManagedHost
  corosync_resource_bans : List BannedResource
  corosync_node_managed_hosts : List CorosyncNodeManagedHost
  managed_filesystems : List ManagedFilesystem
  lnets : List LnetRecord
  nid_records : List NidRecord
  fqdns : Int → Option String

/-- The struct `BannedTargetResource` produced by `get_banned_targets`. -/
structure BannedTargetResource where
  resource : String
  cluster_id : Int
  host_id : Int
  mount_point : Option String
deriving DecidableEq

/-- The struct `TargetResource` returned by `get_fs_target_resources`. -/
structure TargetResource where
  cluster_id : Int
  fs_names : List String
  uuid : String
  name : String
  resource_id : String
  state : String
  cluster_hosts : List Int
deriving DecidableEq

/-- The `SortDir` wire type (defaults to ascending). -/
inductive SortDir where
  | asc
  | desc
deriving DecidableEq

/-- Byte-level key of a string, used to model Postgres text ordering. -/
def strKey (s : String) : List Nat :=
  s.data.map Char.toNat

/-- Lexicographic less-or-equal on lists of naturals. -/
def lexLeB : List Nat → List Nat → Bool
  | [], _ => true
  | _ :: _, [] => false
  | a :: as, b :: bs => if a < b then true else if b < a then false else lexLeB as bs

theorem lexLeB_total (x y : List Nat) : lexLeB x y = true ∨ lexLeB y x = true := by
  induction x generalizing y with
  | nil => exact Or.inl rfl
  | cons a as ih =>
    cases y with
    | nil => exact Or.inr rfl
    | cons b bs =>
      by_cases hab : a < b
      · simp [lexLeB, hab]
      · by_cases hba : b < a
        · simp [lexLeB, hab, hba]
        · have : a = b := by omega
          subst this
          simpa [lexLeB, hab, hba] using ih bs

theorem lexLeB_trans (x y z : List Nat) (h1 : lexLeB x y = true)
    (h2 : lexLeB y z = true) : lexLeB x z = true := by
  induction x generalizing y z with
  | nil => rfl
  | cons a as ih =>
    cases y with
    | nil => simp [lexLeB] at h1
    | cons b bs =>
      cases z with
      | nil => simp [lexLeB] at h2
      | cons c cs =>
        by_cases hab : a < b
        · by_cases hbc : b < c
          · have : a < c := by omega
            simp [lexLeB, this]
          · by_cases hcb : c < b
            · simp [lexLeB, hbc, hcb] at h2
            · have : b = c := by omega
              subst this
              simp [lexLeB, hab]
        · by_cases hba : b < a
          · simp [lexLeB, hab, hba] at h1
          · have hab' : a = b := by omega
            subst hab'
            simp only [lexLeB, lt_irrefl, if_false] at h1
            by_cases hbc : a < c
            · simp [lexLeB, hbc]
            · by_cases hcb : c < a
              · simp [lexLeB, hbc, hcb] at h2
              · have : a = c := by omega
                subst this
                simp only [lexLeB, lt_irrefl, if_false] at h2 ⊢
                exact ih bs cs h1 h2

/-- Order on strings used to model Postgres `ORDER BY` on text columns. -/
def strLe (a b : String) : Prop :=
  lexLeB (strKey a) (strKey b) = true

instance : DecidableRel strLe := fun a b =>
  inferInstanceAs (Decidable (lexLeB (strKey a) (strKey b) = true))

/-- The `(l.host_id, n.nid)` sort key of `client_mount_source`'s
`ORDER BY l.host_id, n.nid`. -/
def nidPairLe (a b : Int × String) : Prop :=
  a.1 < b.1 ∨ (a.1 = b.1 ∧ strLe a.2 b.2)

instance : DecidableRel nidPairLe := fun a b =>
  inferInstanceAs (Decidable (a.1 < b.1 ∨ (a.1 = b.1 ∧ strLe a.2 b.2)))

instance : IsTotal (Int × String) nidPairLe where
  total a b := by
    rcases lt_trichotomy a.1 b.1 with h | h | h
    · exact Or.inl (Or.inl h)
    · rcases lexLeB_total (strKey a.2) (strKey b.2) with hs | hs
      · exact Or.inl (Or.inr ⟨h, hs⟩)
      · exact Or.inr (Or.inr ⟨h.symm, hs⟩)
    · exact Or.inr (Or.inl h)

instance : IsTrans (Int × String) nidPairLe where
  trans a b c hab hbc := by
    rcases hab with h1 | ⟨h1, hs1⟩
    · rcases hbc with h2 | ⟨h2, _⟩
      · exact Or.inl (h1.trans h2)
      · exact Or.inl (h2 ▸ h1)
    · rcases hbc with h2 | ⟨h2, hs2⟩
      · exact Or.inl (h1 ▸ h2)
      · exact Or.inr ⟨h1.trans h2, lexLeB_trans _ _ _ hs1 hs2⟩

/-- `get_banned_targets`: the SQL join of `corosync_resource_bans` with
`corosync_node_managed_host` (on node name and cluster) and
`corosync_resource` (on resource name and cluster), keeping only rows whose
resource has a non-NULL mount point. -/
def get_banned_targets (db : Db) : List BannedTargetResource :=
  db.corosync_resource_bans.flatMap fun b =>
    db.corosync_node_managed_hosts.flatMap fun nh =>
      db.corosync_resources.filterMap fun r =>
        if nh.node_name = b.node ∧ nh.cluster_id = b.cluster_id ∧
            r.name = b.resource ∧ b.cluster_id = r.cluster_id ∧
            r.mount_point ≠ none then
          some { resource := b.resource, cluster_id := b.cluster_id,
                 host_id := nh.host_id, mount_point := r.mount_point }
        else
          none

/-- One row of the SQL join inside `get_fs_target_resources`, before the
`GROUP BY`: `target` joined with `corosync_resource` on
`r.mount_point = t.mount_path` (non-NULL SQL equality) and with
`corosync_resource_managed_host` on resource name and
`rh.host_id = ANY(t.host_ids)`, keeping targets with at least one
filesystem. -/
structure TargetJoinRow where
  cluster_id : Int
  id : String
  name : String
  mount_path : Option String
  filesystems : List String
  uuid : String
  state : String
  host_id : Int
deriving DecidableEq

/-- The pre-aggregation rows of the `get_fs_target_resources` query. -/
def targetJoinRows (db : Db) : List TargetJoinRow :=
  db.targets.flatMap fun t =>
    db.corosync_resources.flatMap fun r =>
      db.corosync_resource_managed_hosts.filterMap fun rh =>
        if t.mount_path ≠ none ∧ r.mount_point = t.mount_path ∧
            rh.corosync_resource_id = r.name ∧ rh.host_id ∈ t.host_ids ∧
            t.filesystems ≠ [] then
          some { cluster_id := rh.cluster_id, id := r.name, name := t.name,
                 mount_path := t.mount_path, filesystems := t.filesystems,
                 uuid := t.uuid, state := t.state, host_id := rh.host_id }
        else
          none

/-- The `GROUP BY rh.cluster_id, t.name, r.name, t.mount_path, t.uuid,
t.filesystems, t.state` key. -/
structure TargetGroupKey where
  cluster_id : Int
  id : String
  name : String
  mount_path : Option String
  filesystems : List String
  uuid : String
  state : String
deriving DecidableEq

/-- Group key of a join row. -/
def rowKey (x : TargetJoinRow) : TargetGroupKey :=
  { cluster_id := x.cluster_id, id := x.id, name := x.name,
    mount_path := x.mount_path, filesystems := x.filesystems,
    uuid := x.uuid, state := x.state }

/-- One aggregated row of the `get_fs_target_resources` query:
the group key plus `array_agg(DISTINCT rh.host_id) AS cluster_hosts`. -/
structure TargetResourceRow where
  cluster_id : Int
  id : String
  name : String
  mount_path : Option String
  filesystems : List String
  uuid : String
  state : String
  cluster_hosts : List Int
deriving DecidableEq

/-- The aggregated (post `GROUP BY`) result rows of the
`get_fs_target_resources` query. -/
def targetResourceRows (db : Db) : List TargetResourceRow :=
  ((targetJoinRows db).map rowKey).dedup.map fun k =>
    { cluster_id := k.cluster_id, id := k.id, name := k.name,
      mount_path := k.mount_path, filesystems := k.filesystems,
      uuid := k.uuid, state := k.state,
      cluster_hosts :=
        (((targetJoinRows db).filter fun x => decide (rowKey x = k)).map
          (fun x => x.host_id)).dedup }

/-- The `try_filter` stage of `get_fs_target_resources`: keep a row when no
filesystem name was requested, or when the row's `filesystems` contain it. -/
def fsFilteredRows (db : Db) (fs_name : Option String) : List TargetResourceRow :=
  (targetResourceRows db).filter fun x =>
    match fs_name with
    | none => true
    | some fs => decide (fs ∈ x.filesystems)

/-- The ban-matching predicate of the exclusion closure in
`get_fs_target_resources`:
`y.cluster_id == x.cluster_id && y.resource == x.id && x.mount_path == y.mount_point`. -/
def banMatches (y : BannedTargetResource) (x : TargetResourceRow) : Bool :=
  decide (y.cluster_id = x.cluster_id) && decide (y.resource = x.id) &&
    decide (x.mount_path = y.mount_point)

/-- The `map_ok` exclusion stage: collect the host ids of the bans matching
the row and `retain` only the other hosts. -/
def excludeBanned (bans : List BannedTargetResource) (x : TargetResourceRow) :
    TargetResourceRow :=
  { x with cluster_hosts :=
      x.cluster_hosts.filter fun i =>
        !(bans.any fun y => banMatches y x && decide (y.host_id = i)) }

/-- The final `map_ok` stage packing a row into a `TargetResource`. -/
def toTargetResource (x : TargetResourceRow) : TargetResource :=
  { cluster_id := x.cluster_id, fs_names := x.filesystems, uuid := x.uuid,
    name := x.name, resource_id := x.id, state := x.state,
    cluster_hosts := x.cluster_hosts }

/-- `get_fs_target_resources`: the aggregated join, filtered to the requested
filesystem, with banned hosts removed from each row's `cluster_hosts`. -/
def get_fs_target_resources (db : Db) (fs_name : Option String) :
    List TargetResource :=
  ((fsFilteredRows db fs_name).map (excludeBanned (get_banned_targets db))).map
    toTargetResource

/-- itertools `group_by`: splits a list into its maximal runs of consecutive
elements sharing the key `f`. -/
def groupRunsBy (f : TargetResource → Int) : List TargetResource → List (List TargetResource)
  | [] => []
  | a :: as =>
    match groupRunsBy f as with
    | [] => [[a]]
    | [] :: gs => [a] :: gs
    | (b :: bs) :: gs =>
      if f a = f b then (a :: b :: bs) :: gs else [a] :: (b :: bs) :: gs

/-- The intermediate `Vec<Vec<i32>>` of `get_fs_cluster_hosts`: one host-id
group per `group_by(cluster_id)` run, each the deduplicated union of the
run's `cluster_hosts`. -/
def fsClusterHostIdGroups (db : Db) (fs_name : String) : List (List Int) :=
  (groupRunsBy (fun x => x.cluster_id)
      (get_fs_target_resources db (some fs_name))).map
    fun g => (g.flatMap fun x => x.cluster_hosts).dedup

/-- `get_fs_cluster_hosts`: resolve each host-id group to FQDNs, dropping
hosts whose lookup fails. -/
def get_fs_cluster_hosts (db : Db) (fs_name : String) : List (List String) :=
  (fsClusterHostIdGroups db fs_name).map fun g => g.filterMap db.fqdns

/-- The pre-aggregation `(l.host_id, n.nid)` rows of the
`client_mount_source` query: `target` (name `MGS`, filesystem membership)
joined with `lnet` on `l.host_id = ANY(t.host_ids)` and `nid` on
`n.id = ANY(l.nids)`, excluding nids of hosts in the ban subquery
(bans joined to nodes and to resources with a non-NULL mount point equal to
the MGS target's mount path). -/
def mgsNidRows (db : Db) (fs_name : String) : List (Int × String) :=
  db.targets.flatMap fun t =>
    db.lnets.flatMap fun l =>
      db.nid_records.filterMap fun n =>
        if t.name = "MGS" ∧ fs_name ∈ t.filesystems ∧ l.host_id ∈ t.host_ids ∧
            n.id ∈ l.nids ∧
            ¬(db.corosync_resource_bans.any fun b =>
                db.corosync_node_managed_hosts.any fun nh =>
                  db.corosync_resources.any fun r =>
                    decide (nh.node_name = b.node) &&
                      decide (nh.cluster_id = b.cluster_id) &&
                      decide (r.name = b.resource) &&
                      decide (b.cluster_id = r.cluster_id) &&
                      decide (r.mount_point ≠ none) &&
                      decide (r.mount_point = t.mount_path) &&
                      decide (nh.host_id = n.host_id)) = true then
          some (l.host_id, n.nid)
        else
          none

/-- The `GROUP BY l.host_id, n.nid ORDER BY l.host_id, n.nid` stage:
deduplicate the pairs and sort them ascending by `(host id, nid)`. -/
def sortedMgsNidPairs (db : Db) (fs_name : String) : List (Int × String) :=
  List.insertionSort nidPairLe (mgsNidRows db fs_name).dedup

/-- The nid strings underlying `client_mount_source`, in query order. -/
def mgsNids (db : Db) (fs_name : String) : List String :=
  (sortedMgsNidPairs db fs_name).map fun x => x.2

/-- `client_mount_source`: `format!("{}:/{}", nids.join(":"), fs_name)`. -/
def client_mount_source (db : Db) (fs_name : String) : String :=
  String.intercalate ":" (mgsNids db fs_name) ++ ":/" ++ fs_name

/-- `fs_id_by_name`: look up a non-deleted filesystem by name, failing with
the `Filesystem {} not found` field error otherwise. -/
def fs_id_by_name (db : Db) (name : String) : Except String Int :=
  match db.managed_filesystems.find? fun f =>
      decide (f.name = name) && f.not_deleted with
  | some f => Except.ok f.id
  | none => Except.error ("Filesystem " ++ name ++ " not found")

/-- The GraphQL resolver `QueryRoot::get_fs_target_resources`: resolve the
filesystem name first when one is given, then run the join. -/
def queryGetFsTargetResources (db : Db) (fs_name : Option String) :
    Except String (List TargetResource) :=
  match fs_name with
  | some fs =>
    (fs_id_by_name db fs).bind fun _ =>
      Except.ok (get_fs_target_resources db (some fs))
  | none => Except.ok (get_fs_target_resources db none)

/-- The GraphQL resolver `QueryRoot::get_fs_cluster_hosts`: resolve the
filesystem name first, then group. -/
def queryGetFsClusterHosts (db : Db) (fs_name : String) :
    Except String (List (List String)) :=
  (fs_id_by_name db fs_name).bind fun _ =>
    Except.ok (get_fs_cluster_hosts db fs_name)

/-- The GraphQL resolver `QueryRoot::client_mount_source`: no filesystem
resolution check is performed. -/
def queryClientMountSource (db : Db) (fs_name : String) :
    Except String String :=
  Except.ok (client_mount_source db fs_name)

/-- The GraphQL resolver `QueryRoot::client_mount_command`:
`format!("mount -t lustre {} /mnt/{}", source, fs_name)`; again no
filesystem resolution check. -/
def queryClientMountCommand (db : Db) (fs_name : String) :
    Except String String :=
  Except.ok ("mount -t lustre " ++ client_mount_source db fs_name ++
    " /mnt/" ++ fs_name)

/-- `QueryRoot::get_banned_resources`: the raw, unfiltered ban rows. -/
def queryGetBannedResources (db : Db) : Except String (List BannedResource) :=
  Except.ok db.corosync_resource_bans

/-- The name ordering used by the `targets` query's
`ORDER BY t.name ASC/DESC`. -/
def nameLe (dir : SortDir) (a b : TargetRecord) : Prop :=
  match dir with
  | SortDir.asc => strLe a.name b.name
  | SortDir.desc => strLe b.name a.name

instance : DecidableRel (nameLe dir) := fun a b => by
  cases dir with
  | asc => exact inferInstanceAs (Decidable (strLe a.name b.name))
  | desc => exact inferInstanceAs (Decidable (strLe b.name a.name))

/-- The SQL stage of `QueryRoot::targets`: sort by name in the requested
direction, apply `OFFSET` and `LIMIT`. -/
def targetsSqlStage (db : Db) (limit : Option Nat) (offset : Option Nat)
    (dir : SortDir) : List TargetRecord :=
  let sorted := List.insertionSort (nameLe dir) db.targets
  let dropped := sorted.drop (offset.getD 0)
  match limit with
  | some n => dropped.take n
  | none => dropped

/-- The Rust-side stages of `QueryRoot::targets`: filter by filesystem
membership and mounted state, then swap each record's `host_ids` for the
ban-aware `cluster_hosts` of the `TargetResource` of the same name, when
one exists. -/
def targetsPipeline (db : Db) (limit : Option Nat) (offset : Option Nat)
    (dir : SortDir) (fs_name : Option String) (exclude_unmounted : Option Bool) :
    List TargetRecord :=
  let xs := (targetsSqlStage db limit offset dir).filter fun x =>
    match fs_name with
    | some fs => decide (fs ∈ x.filesystems)
    | none => true
  let xs := xs.filter fun x =>
    match exclude_unmounted with
    | some true => decide (x.state ≠ "unmounted")
    | _ => true
  let target_resources := get_fs_target_resources db none
  xs.map fun x =>
    match target_resources.find? fun r => decide (r.name = x.name) with
    | some r => { x with host_ids := r.cluster_hosts }
    | none => x

/-- The GraphQL resolver `QueryRoot::targets`: resolve the filesystem name
first when one is given, then run the pipeline. -/
def queryTargets (db : Db) (limit : Option Nat) (offset : Option Nat)
    (dir : Option SortDir) (fs_name : Option String)
    (exclude_unmounted : Option Bool) : Except String (List TargetRecord) :=
  let d := dir.getD SortDir.asc
  match fs_name with
  | some fs =>
    (fs_id_by_name db fs).bind fun _ =>
      Except.ok (targetsPipeline db limit offset d (some fs) exclude_unmounted)
  | none => Except.ok (targetsPipeline db limit offset d none exclude_unmounted)

/-- The group key carried by an aggregated row. -/
def keyOfRow (x : TargetResourceRow) : TargetGroupKey :=
  { cluster_id := x.cluster_id, id := x.id, name := x.name,
    mount_path := x.mount_path, filesystems := x.filesystems,
    uuid := x.uuid, state := x.state }

theorem mem_targetJoinRows {db : Db} {j : TargetJoinRow}
    (hj : j ∈ targetJoinRows db) :
    ∃ t ∈ db.targets, ∃ r ∈ db.corosync_resources,
      ∃ rh ∈ db.corosync_resource_managed_hosts,
        t.mount_path ≠ none ∧ r.mount_point = t.mount_path ∧
        rh.corosync_resource_id = r.name ∧ rh.host_id ∈ t.host_ids ∧
        t.filesystems ≠ [] ∧
        j = { cluster_id := rh.cluster_id, id := r.name, name := t.name,
              mount_path := t.mount_path, filesystems := t.filesystems,
              uuid := t.uuid, state := t.state, host_id := rh.host_id } := by
  simp only [targetJoinRows, List.mem_flatMap, List.mem_filterMap] at hj
  obtain ⟨t, ht, r, hr, rh, hrh, hif⟩ := hj
  refine ⟨t, ht, r, hr, rh, hrh, ?_⟩
  split_ifs at hif with hc
  · obtain ⟨h1, h2, h3, h4, h5⟩ := hc
    exact ⟨h1, h2, h3, h4, h5, (Option.some_inj.mp hif).symm⟩

theorem mem_targetResourceRows {db : Db} {x : TargetResourceRow}
    (hx : x ∈ targetResourceRows db) :
    (∃ j ∈ targetJoinRows db, rowKey j = keyOfRow x) ∧
      ∀ h ∈ x.cluster_hosts,
        ∃ j ∈ targetJoinRows db, rowKey j = keyOfRow x ∧ j.host_id = h := by
  simp only [targetResourceRows, List.mem_map] at hx
  obtain ⟨k, hk, hxk⟩ := hx
  rw [List.mem_dedup, List.mem_map] at hk
  obtain ⟨j0, hj0, hj0k⟩ := hk
  have hkey : keyOfRow x = k := by subst hxk; rfl
  constructor
  · exact ⟨j0, hj0, by rw [hj0k, hkey]⟩
  · intro h hh
    have hx' : x.cluster_hosts =
        (((targetJoinRows db).filter fun j => decide (rowKey j = k)).map
          (fun j => j.host_id)).dedup := by
      subst hxk; rfl
    rw [hx', List.mem_dedup, List.mem_map] at hh
    obtain ⟨j, hjf, hjh⟩ := hh
    rw [List.mem_filter, decide_eq_true_eq] at hjf
    exact ⟨j, hjf.1, by rw [hjf.2, hkey], hjh⟩

theorem mount_path_ne_none_of_mem {db : Db} {x : TargetResourceRow}
    (hx : x ∈ targetResourceRows db) : x.mount_path ≠ none := by
  obtain ⟨⟨j, hj, hjk⟩, -⟩ := mem_targetResourceRows hx
  obtain ⟨t, -, r, -, rh, -, hmp, -, -, -, -, hjeq⟩ := mem_targetJoinRows hj
  have : j.mount_path = x.mount_path := congrArg TargetGroupKey.mount_path hjk
  rw [← this, hjeq]
  exact hmp

theorem mem_fsFilteredRows {db : Db} {fs_name : Option String}
    {x : TargetResourceRow} (hx : x ∈ fsFilteredRows db fs_name) :
    x ∈ targetResourceRows db :=
  (List.mem_filter.mp hx).1

theorem mem_excludeBanned_hosts {bans : List BannedTargetResource}
    {x : TargetResourceRow} {h : Int} :
    h ∈ (excludeBanned bans x).cluster_hosts ↔
      h ∈ x.cluster_hosts ∧
        ∀ y ∈ bans, banMatches y x = true → y.host_id ≠ h := by
  simp only [excludeBanned, List.mem_filter, Bool.not_eq_true', List.any_eq_false,
    Bool.and_eq_true, decide_eq_true_eq, not_and]

theorem mem_get_fs_target_resources {db : Db} {fs_name : Option String}
    {tr : TargetResource} :
    tr ∈ get_fs_target_resources db fs_name ↔
      ∃ x ∈ fsFilteredRows db fs_name,
        tr = toTargetResource (excludeBanned (get_banned_targets db) x) := by
  simp only [get_fs_target_resources, List.map_map, List.mem_map,
    Function.comp_apply]
  constructor
  · rintro ⟨x, hx, h⟩
    exact ⟨x, hx, h.symm⟩
  · rintro ⟨x, hx, h⟩
    exact ⟨x, hx, h.symm⟩

theorem groupRunsBy_flatten (f : TargetResource → Int) (l : List TargetResource) :
    (groupRunsBy f l).flatten = l := by
  induction l with
  | nil => rfl
  | cons a as ih =>
    cases h : groupRunsBy f as with
    | nil =>
      have has : as = [] := by rw [← ih, h, List.flatten_nil]
      simp [groupRunsBy, h, has]
    | cons g0 gs =>
      cases g0 with
      | nil =>
        rw [h] at ih
        rw [show groupRunsBy f (a :: as) = [a] :: gs from by simp [groupRunsBy, h]]
        simpa using ih
      | cons b bs =>
        rw [h] at ih
        by_cases hf : f a = f b
        · rw [show groupRunsBy f (a :: as) = (a :: b :: bs) :: gs from by
            simp [groupRunsBy, h, hf]]
          simpa using ih
        · rw [show groupRunsBy f (a :: as) = [a] :: (b :: bs) :: gs from by
            simp [groupRunsBy, h, hf]]
          simpa using ih

theorem ne_nil_of_mem_groupRunsBy (f : TargetResource → Int)
    {l : List TargetResource} {g : List TargetResource}
    (hg : g ∈ groupRunsBy f l) : g ≠ [] := by
  induction l generalizing g with
  | nil => simp [groupRunsBy] at hg
  | cons a as ih =>
    cases h : groupRunsBy f as with
    | nil =>
      rw [show groupRunsBy f (a :: as) = [[a]] by simp [groupRunsBy, h]] at hg
      rcases List.mem_singleton.mp hg with rfl
      simp
    | cons g0 gs =>
      cases g0 with
      | nil =>
        rw [show groupRunsBy f (a :: as) = [a] :: gs by simp [groupRunsBy, h]] at hg
        rcases List.mem_cons.mp hg with rfl | hg'
        · simp
        · exact ih (h ▸ List.mem_cons_of_mem _ hg')
      | cons b bs =>
        by_cases hf : f a = f b
        · rw [show groupRunsBy f (a :: as) = (a :: b :: bs) :: gs by
            simp [groupRunsBy, h, hf]] at hg
          rcases List.mem_cons.mp hg with rfl | hg'
          · simp
          · exact ih (h ▸ List.mem_cons_of_mem _ hg')
        · rw [show groupRunsBy f (a :: as) = [a] :: (b :: bs) :: gs by
            simp [groupRunsBy, h, hf]] at hg
          rcases List.mem_cons.mp hg with rfl | hg'
          · simp
          · exact ih (h ▸ hg')

theorem eq_f_of_mem_groupRunsBy (f : TargetResource → Int)
    {l : List TargetResource} :
    ∀ {g : List TargetResource} {x y : TargetResource},
      g ∈ groupRunsBy f l → x ∈ g → y ∈ g → f x = f y := by
  induction l with
  | nil => intro g x y hg; simp [groupRunsBy] at hg
  | cons a as ih =>
    intro g x y hg hx hy
    cases h : groupRunsBy f as with
    | nil =>
      rw [show groupRunsBy f (a :: as) = [[a]] by simp [groupRunsBy, h]] at hg
      rcases List.mem_singleton.mp hg with rfl
      rcases List.mem_singleton.mp hx with rfl
      rcases List.mem_singleton.mp hy with rfl
      rfl
    | cons g0 gs =>
      cases g0 with
      | nil =>
        rw [show groupRunsBy f (a :: as) = [a] :: gs by simp [groupRunsBy, h]] at hg
        rcases List.mem_cons.mp hg with rfl | hg'
        · rcases List.mem_singleton.mp hx with rfl
          rcases List.mem_singleton.mp hy with rfl
          rfl
        · exact ih (h ▸ List.mem_cons_of_mem _ hg') hx hy
      | cons b bs =>
        by_cases hf : f a = f b
        · rw [show groupRunsBy f (a :: as) = (a :: b :: bs) :: gs by
            simp [groupRunsBy, h, hf]] at hg
          rcases List.mem_cons.mp hg with rfl | hg'
          · have hbmem : (b :: bs) ∈ groupRunsBy f as := h ▸ List.mem_cons_self _ _
            have key : ∀ z ∈ a :: b :: bs, f z = f b := by
              intro z hz
              rcases List.mem_cons.mp hz with rfl | hz'
              · exact hf
              · exact ih hbmem hz' (List.mem_cons_self _ _)
            rw [key x hx, key y hy]
          · exact ih (h ▸ List.mem_cons_of_mem _ hg') hx hy
        · rw [show groupRunsBy f (a :: as) = [a] :: (b :: bs) :: gs by
            simp [groupRunsBy, h, hf]] at hg
          rcases List.mem_cons.mp hg with rfl | hg'
          · rcases List.mem_singleton.mp hx with rfl
            rcases List.mem_singleton.mp hy with rfl
            rfl
          · exact ih (h ▸ hg') hx hy

theorem groupRunsBy_pairwise_ne (f : TargetResource → Int)
    {l : List TargetResource} (hs : l.Pairwise fun x y => f x ≤ f y) :
    (groupRunsBy f l).Pairwise
      fun g1 g2 => ∀ x ∈ g1, ∀ y ∈ g2, f x ≠ f y := by
  induction l with
  | nil => simp [groupRunsBy]
  | cons a as ih =>
    rw [List.pairwise_cons] at hs
    obtain ⟨ha, hs'⟩ := hs
    have IH := ih hs'
    cases h : groupRunsBy f as with
    | nil =>
      rw [show groupRunsBy f (a :: as) = [[a]] from by simp [groupRunsBy, h]]
      simp
    | cons g0 gs =>
      cases g0 with
      | nil =>
        exact absurd rfl (ne_nil_of_mem_groupRunsBy f (h ▸ List.mem_cons_self _ _))
      | cons b bs =>
        rw [h] at IH
        have hbmem : (b :: bs) ∈ groupRunsBy f as := h ▸ List.mem_cons_self _ _
        have hjoin : (b :: bs) ++ gs.flatten = as := by
          have hfl := groupRunsBy_flatten f as
          rw [h] at hfl
          simpa using hfl
        by_cases hf : f a = f b
        · rw [show groupRunsBy f (a :: as) = (a :: b :: bs) :: gs from by
            simp [groupRunsBy, h, hf]]
          rw [List.pairwise_cons] at IH ⊢
          obtain ⟨hbgs, hgs⟩ := IH
          refine ⟨?_, hgs⟩
          intro g hg x hx y hy
          rcases List.mem_cons.mp hx with rfl | hx'
          · rw [hf]
            exact hbgs g hg b (List.mem_cons_self _ _) y hy
          · exact hbgs g hg x hx' y hy
        · rw [show groupRunsBy f (a :: as) = [a] :: (b :: bs) :: gs from by
            simp [groupRunsBy, h, hf]]
          rw [List.pairwise_cons]
          refine ⟨?_, IH⟩
          intro g hg x hx y hy
          rcases List.mem_singleton.mp hx with rfl
          rcases List.mem_cons.mp hg with rfl | hg'
          · have hyb : f y = f b :=
              eq_f_of_mem_groupRunsBy f hbmem hy (List.mem_cons_self _ _)
            rw [hyb]
            exact hf
          · intro heq
            have hb_as : b ∈ as := by
              rw [← hjoin]
              exact List.mem_append_left _ (List.mem_cons_self _ _)
            have h1 : f x ≤ f b := ha b hb_as
            have hcross := (List.pairwise_append.mp (hjoin ▸ hs')).2.2
            have h2 : f b ≤ f y :=
              hcross b (List.mem_cons_self _ _) y
                (List.mem_flatten.mpr ⟨g, hg', hy⟩)
            exact hf (le_antisymm h1 (heq ▸ h2))

theorem banMatches_eq_true_iff {y : BannedTargetResource} {x : TargetResourceRow} :
    banMatches y x = true ↔
      y.cluster_id = x.cluster_id ∧ y.resource = x.id ∧
        x.mount_path = y.mount_point := by
  simp [banMatches, and_assoc]

/-- C1: a host banned for a resource at its mount path never appears in that
resource's eligible `cluster_hosts`, and a ban not matching a row (differing
in cluster id, resource id, or mount path) leaves that row's exclusion
untouched. -/
theorem c1_ban_excludes_only_matching_resource (db : Db) (fs_name : Option String)
    (x : TargetResourceRow) (y : BannedTargetResource)
    (hx : x ∈ fsFilteredRows db fs_name) (hy : y ∈ get_banned_targets db) :
    ((y.cluster_id = x.cluster_id ∧ y.resource = x.id ∧
        (∃ m, y.mount_point = some m ∧ x.mount_path = some m)) →
      y.host_id ∉ (excludeBanned (get_banned_targets db) x).cluster_hosts) ∧
    (¬(y.cluster_id = x.cluster_id ∧ y.resource = x.id ∧
        (∃ m, y.mount_point = some m ∧ x.mount_path = some m)) →
      ∀ bans, excludeBanned (y :: bans) x = excludeBanned bans x) := by
  constructor
  · rintro ⟨hc, hr, m, hym, hxm⟩ hmem
    obtain ⟨-, hall⟩ := mem_excludeBanned_hosts.mp hmem
    have hbm : banMatches y x = true :=
      banMatches_eq_true_iff.mpr ⟨hc, hr, by rw [hxm, hym]⟩
    exact hall y hy hbm rfl
  · intro hnot bans
    have hxp : x.mount_path ≠ none :=
      mount_path_ne_none_of_mem (mem_fsFilteredRows hx)
    have hbm : banMatches y x = false := by
      rw [Bool.eq_false_iff]
      intro hbm'
      obtain ⟨hc, hr, hmp⟩ := banMatches_eq_true_iff.mp hbm'
      obtain ⟨p, hp⟩ := Option.ne_none_iff_exists'.mp hxp
      exact hnot ⟨hc, hr, p, by rw [← hmp, hp], hp⟩
    simp only [excludeBanned]
    congr 1
    apply List.filter_congr
    intro i _
    simp [List.any_cons, hbm]

/-- C2: every host in a `TargetResource`'s ban-aware `cluster_hosts` comes
from the raw `host_ids` of the backing `target` row of the same name
(target names assumed unique, as `t.name` is part of the group key). -/
theorem c2_eligible_subset_of_raw_hosts (db : Db) (fs_name : Option String)
    (hn : (db.targets.map TargetRecord.name).Nodup) :
    ∀ tr ∈ get_fs_target_resources db fs_name, ∀ t ∈ db.targets,
      t.name = tr.name → ∀ h ∈ tr.cluster_hosts, h ∈ t.host_ids := by
  intro tr htr t ht hname h hh
  obtain ⟨x, hx, htreq⟩ := mem_get_fs_target_resources.mp htr
  subst htreq
  simp only [toTargetResource] at hh hname
  have hh' : h ∈ x.cluster_hosts := (mem_excludeBanned_hosts.mp hh).1
  obtain ⟨-, hmem⟩ := mem_targetResourceRows (mem_fsFilteredRows hx)
  obtain ⟨j, hj, hjk, hjh⟩ := hmem h hh'
  obtain ⟨t', ht', r, hr, rh, hrh, -, -, -, hhost, -, hjeq⟩ :=
    mem_targetJoinRows hj
  have hjname : j.name = x.name := congrArg TargetGroupKey.name hjk
  have hname' : t.name = x.name := hname
  have ht'name : t'.name = t.name := by
    have hjt : j.name = t'.name := by rw [hjeq]
    rw [← hjt, hjname, hname']
  have ht't : t' = t := List.inj_on_of_nodup_map hn ht' ht ht'name
  have hhid : j.host_id = rh.host_id := by rw [hjeq]
  rw [← hjh, hhid, ← ht't]
  exact hhost

/-- C3 (amended): in the exclusion stage, a ban whose mount point is unset
matches no joined row (rows always carry a set mount path), so it excludes
nothing; a ban with mount point `m` excludes exactly its banned host, and
only when `m` equals the row's mount path. -/
theorem c3_ban_mount_point_semantics (db : Db) (fs_name : Option String)
    (x : TargetResourceRow) (y : BannedTargetResource)
    (hx : x ∈ fsFilteredRows db fs_name)
    (hmatch : y.cluster_id = x.cluster_id ∧ y.resource = x.id) :
    (y.mount_point = none →
      (excludeBanned [y] x).cluster_hosts = x.cluster_hosts) ∧
    (∀ m, y.mount_point = some m → ∀ h ∈ x.cluster_hosts,
      (h ∉ (excludeBanned [y] x).cluster_hosts ↔
        y.host_id = h ∧ x.mount_path = some m)) := by
  have hxp : x.mount_path ≠ none :=
    mount_path_ne_none_of_mem (mem_fsFilteredRows hx)
  constructor
  · intro hnone
    have hbm : banMatches y x = false := by
      rw [Bool.eq_false_iff]
      intro hbm'
      obtain ⟨-, -, hmp⟩ := banMatches_eq_true_iff.mp hbm'
      rw [hnone] at hmp
      exact hxp hmp
    simp [excludeBanned, List.any_cons, hbm]
  · intro m hm h hh
    constructor
    · intro hnot
      by_cases hmp : x.mount_path = some m
      · refine ⟨?_, hmp⟩
        by_contra hne
        apply hnot
        rw [mem_excludeBanned_hosts]
        refine ⟨hh, ?_⟩
        intro y' hy' hbm'
        rcases List.mem_singleton.mp hy' with rfl
        exact fun he => hne he
      · exfalso
        apply hnot
        rw [mem_excludeBanned_hosts]
        refine ⟨hh, ?_⟩
        intro y' hy' hbm'
        rcases List.mem_singleton.mp hy' with rfl
        obtain ⟨-, -, hmp'⟩ := banMatches_eq_true_iff.mp hbm'
        rw [hm] at hmp'
        exact absurd hmp' hmp
    · rintro ⟨hhost, hmp⟩ hmem
      obtain ⟨-, hall⟩ := mem_excludeBanned_hosts.mp hmem
      have hbm : banMatches y x = true :=
        banMatches_eq_true_iff.mpr ⟨hmatch.1, hmatch.2, by rw [hmp, hm]⟩
      exact hall y (List.mem_singleton.mpr rfl) hbm hhost

/-- A two-host, one-target, one-cluster snapshot with one ban on host 1
(the spec's §8 scenario data). -/
def dbA : Db :=
  { targets :=
      [ { id := 1, state := "mounted", name := "MGS", active_host_id := some 1,
          host_ids := [1, 2], filesystems := ["fsA"], uuid := "u1",
          mount_path := some "/mnt/mgs", dev_path := none,
          fs_type := some "ldiskfs" } ],
    corosync_resources :=
      [ { name := "MGS_res", cluster_id := 1, mount_point := some "/mnt/mgs" } ],
    corosync_resource_managed_hosts :=
      [ { corosync_resource_id := "MGS_res", cluster_id := 1, host_id := 1 },
        { corosync_resource_id := "MGS_res", cluster_id := 1, host_id := 2 } ],
    corosync_resource_bans :=
      [ { id := 1, name := "ban1", cluster_id := 1, resource := "MGS_res",
          node := "node1", weight := 0, master_only := false } ],
    corosync_node_managed_hosts :=
      [ { node_name := "node1", cluster_id := 1, host_id := 1 } ],
    managed_filesystems := [ { id := 7, name := "fsA", not_deleted := true } ],
    lnets := [],
    nid_records := [],
    fqdns := fun _ => none }

/-- The single aggregated row of `dbA`'s target join. -/
def rowA : TargetResourceRow :=
  { cluster_id := 1, id := "MGS_res", name := "MGS",
    mount_path := some "/mnt/mgs", filesystems := ["fsA"], uuid := "u1",
    state := "mounted", cluster_hosts := [1, 2] }

/-- The single banned-target row of `dbA`. -/
def banA : BannedTargetResource :=
  { resource := "MGS_res", cluster_id := 1, host_id := 1,
    mount_point := some "/mnt/mgs" }

theorem c1_witness :
    rowA ∈ fsFilteredRows dbA (some "fsA") ∧
    banA ∈ get_banned_targets dbA ∧
    banA.host_id ∉ (excludeBanned (get_banned_targets dbA) rowA).cluster_hosts :=
  ⟨by decide, by decide,
    (c1_ban_excludes_only_matching_resource dbA (some "fsA") rowA banA
        (by decide) (by decide)).1
      ⟨by decide, by decide, "/mnt/mgs", by decide, by decide⟩⟩

theorem c2_witness :
    (dbA.targets.map TargetRecord.name).Nodup ∧
    (∀ tr ∈ get_fs_target_resources dbA (some "fsA"), ∀ t ∈ dbA.targets,
      t.name = tr.name → ∀ h ∈ tr.cluster_hosts, h ∈ t.host_ids) :=
  ⟨by decide, c2_eligible_subset_of_raw_hosts dbA (some "fsA") (by decide)⟩

/-- A snapshot for the C3 counterexample: one target row joined to resource
`RES` in cluster 2. -/
def dbC3 : Db :=
  { targets :=
      [ { id := 3, state := "mounted", name := "tgt", active_host_id := none,
          host_ids := [7], filesystems := ["fsB"], uuid := "u3",
          mount_path := some "/mnt/a", dev_path := none, fs_type := none } ],
    corosync_resources :=
      [ { name := "RES", cluster_id := 2, mount_point := some "/mnt/a" } ],
    corosync_resource_managed_hosts :=
      [ { corosync_resource_id := "RES", cluster_id := 2, host_id := 7 } ],
    corosync_resource_bans := [],
    corosync_node_managed_hosts := [],
    managed_filesystems := [ { id := 9, name := "fsB", not_deleted := true } ],
    lnets := [],
    nid_records := [],
    fqdns := fun _ => none }

/-- The single aggregated row of `dbC3`. -/
def rowC3 : TargetResourceRow :=
  { cluster_id := 2, id := "RES", name := "tgt", mount_path := some "/mnt/a",
    filesystems := ["fsB"], uuid := "u3", state := "mounted",
    cluster_hosts := [7] }

/-- A ban record matching `rowC3` by cluster and resource, with no mount
point. -/
def banC3none : BannedTargetResource :=
  { resource := "RES", cluster_id := 2, host_id := 7, mount_point := none }

/-- A ban record matching `rowC3` by cluster and resource, with the row's
mount path as mount point. -/
def banC3some : BannedTargetResource :=
  { resource := "RES", cluster_id := 2, host_id := 7,
    mount_point := some "/mnt/a" }

/-- C3 counterexample: a ban with an unset mount point that matches a row by
cluster id and resource id does NOT exclude its banned host — the host stays
in `cluster_hosts`, while the claim says it is excluded with no mount-point
check. -/
theorem c3_counterexample :
    rowC3 ∈ fsFilteredRows dbC3 (some "fsB") ∧
    banC3none.cluster_id = rowC3.cluster_id ∧
    banC3none.resource = rowC3.id ∧
    banC3none.mount_point = none ∧
    banC3none.host_id ∈ (excludeBanned [banC3none] rowC3).cluster_hosts := by
  decide

theorem c3_witness :
    rowC3 ∈ fsFilteredRows dbC3 (some "fsB") ∧
    (banC3some.cluster_id = rowC3.cluster_id ∧ banC3some.resource = rowC3.id) ∧
    banC3some.mount_point = some "/mnt/a" ∧ (7 : Int) ∈ rowC3.cluster_hosts ∧
    ((7 : Int) ∉ (excludeBanned [banC3some] rowC3).cluster_hosts ↔
      banC3some.host_id = 7 ∧ rowC3.mount_path = some "/mnt/a") :=
  ⟨by decide, ⟨by decide, by decide⟩, by decide, by decide,
    (c3_ban_mount_point_semantics dbC3 (some "fsB") rowC3 banC3some
        (by decide) ⟨by decide, by decide⟩).2
      "/mnt/a" (by decide) 7 (by decide)⟩

/-- C4 (amended): the union of the host-id groups of `get_fs_cluster_hosts`
always equals the set of eligible hosts over all matching `TargetResource`s;
and because grouping is itertools `group_by` over consecutive runs, the
groups are pairwise disjoint with one run per cluster identity only when the
resolver output is sorted by cluster id and hosts are not shared between
distinct cluster identities. -/
theorem c4_cluster_groups_union_and_conditional_partition (db : Db) (fs : String) :
    (∀ h : Int, h ∈ (fsClusterHostIdGroups db fs).flatten ↔
      ∃ t ∈ get_fs_target_resources db (some fs), h ∈ t.cluster_hosts) ∧
    ((get_fs_target_resources db (some fs)).Pairwise
        (fun a b => a.cluster_id ≤ b.cluster_id) →
      (∀ a ∈ get_fs_target_resources db (some fs),
        ∀ b ∈ get_fs_target_resources db (some fs),
          a.cluster_id ≠ b.cluster_id →
            ∀ h ∈ a.cluster_hosts, h ∉ b.cluster_hosts) →
      ((fsClusterHostIdGroups db fs).Pairwise fun g1 g2 => ∀ h ∈ g1, h ∉ g2) ∧
      ((groupRunsBy (fun u => u.cluster_id)
          (get_fs_target_resources db (some fs))).Pairwise
        fun g1 g2 => ∀ a ∈ g1, ∀ b ∈ g2, a.cluster_id ≠ b.cluster_id) ∧
      ∀ t ∈ get_fs_target_resources db (some fs),
        ∃ g ∈ groupRunsBy (fun u => u.cluster_id)
          (get_fs_target_resources db (some fs)), t ∈ g) := by
  constructor
  · intro h
    simp only [fsClusterHostIdGroups, List.mem_flatten, List.mem_map]
    constructor
    · rintro ⟨gg, ⟨run, hrun, hggeq⟩, hh⟩
      rw [← hggeq, List.mem_dedup, List.mem_flatMap] at hh
      obtain ⟨t, ht, hth⟩ := hh
      have htout : t ∈ (groupRunsBy (fun u => u.cluster_id)
          (get_fs_target_resources db (some fs))).flatten :=
        List.mem_flatten.mpr ⟨run, hrun, ht⟩
      rw [groupRunsBy_flatten] at htout
      exact ⟨t, htout, hth⟩
    · rintro ⟨t, ht, hth⟩
      have ht' : t ∈ (groupRunsBy (fun u => u.cluster_id)
          (get_fs_target_resources db (some fs))).flatten := by
        rw [groupRunsBy_flatten]
        exact ht
      obtain ⟨run, hrun, htr⟩ := List.mem_flatten.mp ht'
      refine ⟨(run.flatMap fun u => u.cluster_hosts).dedup, ⟨run, hrun, rfl⟩, ?_⟩
      rw [List.mem_dedup, List.mem_flatMap]
      exact ⟨t, htr, hth⟩
  · intro hsorted hsep
    have hpw := groupRunsBy_pairwise_ne (fun u => u.cluster_id) hsorted
    refine ⟨?_, hpw, ?_⟩
    · rw [fsClusterHostIdGroups, List.pairwise_map]
      refine hpw.imp_of_mem ?_
      intro r1 r2 hr1 hr2 hne h hh1 hh2
      rw [List.mem_dedup, List.mem_flatMap] at hh1 hh2
      obtain ⟨a, ha, hha⟩ := hh1
      obtain ⟨b, hb, hhb⟩ := hh2
      have haout : a ∈ get_fs_target_resources db (some fs) := by
        rw [← groupRunsBy_flatten (fun u => u.cluster_id)
          (get_fs_target_resources db (some fs))]
        exact List.mem_flatten.mpr ⟨r1, hr1, ha⟩
      have hbout : b ∈ get_fs_target_resources db (some fs) := by
        rw [← groupRunsBy_flatten (fun u => u.cluster_id)
          (get_fs_target_resources db (some fs))]
        exact List.mem_flatten.mpr ⟨r2, hr2, hb⟩
      exact hsep a haout b hbout (hne a ha b hb) h hha hhb
    · intro t ht
      have ht' : t ∈ (groupRunsBy (fun u => u.cluster_id)
          (get_fs_target_resources db (some fs))).flatten := by
        rw [groupRunsBy_flatten]
        exact ht
      obtain ⟨run, hrun, htr⟩ := List.mem_flatten.mp ht'
      exact ⟨run, hrun, htr⟩

/-- A snapshot where two targets in different clusters share host 5: the
cluster groups overlap. -/
def dbC4 : Db :=
  { targets :=
      [ { id := 11, state := "mounted", name := "ost1", active_host_id := none,
          host_ids := [5], filesystems := ["fsC"], uuid := "u11",
          mount_path := some "/m1", dev_path := none, fs_type := none },
        { id := 12, state := "mounted", name := "ost2", active_host_id := none,
          host_ids := [5, 6], filesystems := ["fsC"], uuid := "u12",
          mount_path := some "/m2", dev_path := none, fs_type := none } ],
    corosync_resources :=
      [ { name := "res1", cluster_id := 1, mount_point := some "/m1" },
        { name := "res2", cluster_id := 2, mount_point := some "/m2" } ],
    corosync_resource_managed_hosts :=
      [ { corosync_resource_id := "res1", cluster_id := 1, host_id := 5 },
        { corosync_resource_id := "res2", cluster_id := 2, host_id := 5 },
        { corosync_resource_id := "res2", cluster_id := 2, host_id := 6 } ],
    corosync_resource_bans := [],
    corosync_node_managed_hosts := [],
    managed_filesystems := [ { id := 13, name := "fsC", not_deleted := true } ],
    lnets := [],
    nid_records := [],
    fqdns := fun _ => none }

/-- C4 counterexample: host 5 appears in two different groups of the same
filesystem query, so the groups are not pairwise disjoint and are not a
partition of the eligible hosts. -/
theorem c4_counterexample :
    fsClusterHostIdGroups dbC4 "fsC" = [[5], [5, 6]] ∧
    (5 : Int) ∈ [(5 : Int)] ∧ (5 : Int) ∈ [(5 : Int), 6] ∧
    [(5 : Int)] ≠ [(5 : Int), 6] := by
  decide

theorem c4_witness :
    ((get_fs_target_resources dbA (some "fsA")).Pairwise
      fun a b => a.cluster_id ≤ b.cluster_id) ∧
    (∀ a ∈ get_fs_target_resources dbA (some "fsA"),
      ∀ b ∈ get_fs_target_resources dbA (some "fsA"),
        a.cluster_id ≠ b.cluster_id →
          ∀ h ∈ a.cluster_hosts, h ∉ b.cluster_hosts) ∧
    ((fsClusterHostIdGroups dbA "fsA").Pairwise fun g1 g2 => ∀ h ∈ g1, h ∉ g2) :=
  ⟨by decide, by decide,
    ((c4_cluster_groups_union_and_conditional_partition dbA "fsA").2
      (by decide) (by decide)).1⟩

/-- C5 (amended): when the filesystem name does not resolve, the `targets`,
`get_fs_target_resources` and `get_fs_cluster_hosts` resolvers fail with the
`Filesystem {} not found` error as their sole result, but
`client_mount_source` and `client_mount_command` perform no resolution check
and succeed with the composed (possibly degenerate) string. -/
theorem c5_notfound_check_coverage (db : Db) (fs : String)
    (hnf : db.managed_filesystems.find?
      (fun f => decide (f.name = fs) && f.not_deleted) = none) :
    fs_id_by_name db fs =
      Except.error ("Filesystem " ++ fs ++ " not found") ∧
    queryGetFsTargetResources db (some fs) =
      Except.error ("Filesystem " ++ fs ++ " not found") ∧
    queryGetFsClusterHosts db fs =
      Except.error ("Filesystem " ++ fs ++ " not found") ∧
    (∀ limit offset dir ex, queryTargets db limit offset dir (some fs) ex =
      Except.error ("Filesystem " ++ fs ++ " not found")) ∧
    queryClientMountSource db fs = Except.ok (client_mount_source db fs) ∧
    queryClientMountCommand db fs =
      Except.ok ("mount -t lustre " ++ client_mount_source db fs ++
        " /mnt/" ++ fs) := by
  have hid : fs_id_by_name db fs =
      Except.error ("Filesystem " ++ fs ++ " not found") := by
    rw [fs_id_by_name, hnf]
  refine ⟨hid, ?_, ?_, ?_, rfl, rfl⟩
  · rw [queryGetFsTargetResources, hid]
    rfl
  · rw [queryGetFsClusterHosts, hid]
    rfl
  · intro limit offset dir ex
    rw [queryTargets]
    simp only [hid]
    rfl

/-- C5 counterexample: `client_mount_source` succeeds on a filesystem name
that does not resolve, instead of failing with the not-found error the claim
requires of every filesystem-scoped operation. -/
theorem c5_counterexample :
    fs_id_by_name dbC3 "missing" =
      Except.error "Filesystem missing not found" ∧
    queryClientMountSource dbC3 "missing" = Except.ok ":/missing" ∧
    ∀ e, queryClientMountSource dbC3 "missing" ≠ Except.error e :=
  ⟨rfl, rfl, fun _ h => Except.noConfusion h⟩

theorem c5_witness :
    dbC3.managed_filesystems.find?
      (fun f => decide (f.name = "doesNotExist") && f.not_deleted) = none ∧
    queryGetFsTargetResources dbC3 (some "doesNotExist") =
      Except.error ("Filesystem " ++ "doesNotExist" ++ " not found") ∧
    queryGetFsClusterHosts dbC3 "doesNotExist" =
      Except.error ("Filesystem " ++ "doesNotExist" ++ " not found") ∧
    queryTargets dbC3 none none none (some "doesNotExist") none =
      Except.error ("Filesystem " ++ "doesNotExist" ++ " not found") ∧
    queryClientMountSource dbC3 "doesNotExist" =
      Except.ok (client_mount_source dbC3 "doesNotExist") :=
  ⟨by decide,
    (c5_notfound_check_coverage dbC3 "doesNotExist" (by decide)).2.1,
    (c5_notfound_check_coverage dbC3 "doesNotExist" (by decide)).2.2.1,
    (c5_notfound_check_coverage dbC3 "doesNotExist" (by decide)).2.2.2.1
      none none none none,
    (c5_notfound_check_coverage dbC3 "doesNotExist" (by decide)).2.2.2.2.1⟩

/-- The C6 scenario snapshot: MGS target of `fsA` on hosts 1 and 2 with nids
`10.0.0.1@tcp` and `10.0.0.2@tcp`, no bans. -/
def dbC6 : Db :=
  { targets :=
      [ { id := 1, state := "mounted", name := "MGS", active_host_id := some 1,
          host_ids := [1, 2], filesystems := ["fsA"], uuid := "u1",
          mount_path := some "/mnt/mgs", dev_path := none,
          fs_type := some "ldiskfs" } ],
    corosync_resources :=
      [ { name := "MGS_res", cluster_id := 1, mount_point := some "/mnt/mgs" } ],
    corosync_resource_managed_hosts :=
      [ { corosync_resource_id := "MGS_res", cluster_id := 1, host_id := 1 },
        { corosync_resource_id := "MGS_res", cluster_id := 1, host_id := 2 } ],
    corosync_resource_bans := [],
    corosync_node_managed_hosts := [],
    managed_filesystems := [ { id := 7, name := "fsA", not_deleted := true } ],
    lnets := [ { host_id := 1, nids := [10] }, { host_id := 2, nids := [20] } ],
    nid_records := [ { id := 10, nid := "10.0.0.1@tcp", host_id := 1 },
                     { id := 20, nid := "10.0.0.2@tcp", host_id := 2 } ],
    fqdns := fun _ => none }

/-- C6: `client_mount_source` is the colon-join of the surviving nids
followed by `:/fs`, `client_mount_command` wraps it as
`mount -t lustre <source> /mnt/<fs>`, and on the scenario snapshot the
command is exactly the string the spec gives. -/
theorem c6_mount_source_and_command_format (db : Db) (fs : String) :
    client_mount_source db fs =
      String.intercalate ":" (mgsNids db fs) ++ ":/" ++ fs ∧
    queryClientMountCommand db fs =
      Except.ok ("mount -t lustre " ++ client_mount_source db fs ++
        " /mnt/" ++ fs) ∧
    mgsNids dbC6 "fsA" = ["10.0.0.1@tcp", "10.0.0.2@tcp"] ∧
    queryClientMountCommand dbC6 "fsA" =
      Except.ok "mount -t lustre 10.0.0.1@tcp:10.0.0.2@tcp:/fsA /mnt/fsA" :=
  ⟨rfl, rfl, by decide, rfl⟩

/-- C7: the nid list underlying `client_mount_source` is sorted ascending by
the `(host id, nid)` pair order, and repeated calls on the same snapshot
return the same string. -/
theorem c7_mount_source_sorted_deterministic (db : Db) (fs : String) :
    (sortedMgsNidPairs db fs).Pairwise nidPairLe ∧
    client_mount_source db fs = client_mount_source db fs :=
  ⟨List.sorted_insertionSort nidPairLe (mgsNidRows db fs).dedup, rfl⟩

/-- C8: a row whose candidate host set is non-empty before exclusion is
still returned by `get_fs_target_resources` after exclusion, with its
(possibly empty) ban-filtered host set, rather than omitted. -/
theorem c8_empty_eligible_set_still_returned (db : Db) (fs_name : Option String)
    (x : TargetResourceRow) (hx : x ∈ fsFilteredRows db fs_name)
    (hne : x.cluster_hosts ≠ []) :
    ∃ tr ∈ get_fs_target_resources db fs_name,
      tr.cluster_id = x.cluster_id ∧ tr.resource_id = x.id ∧
      tr.name = x.name ∧ tr.uuid = x.uuid ∧
      tr.cluster_hosts = (excludeBanned (get_banned_targets db) x).cluster_hosts :=
  ⟨toTargetResource (excludeBanned (get_banned_targets db) x),
    mem_get_fs_target_resources.mpr ⟨x, hx, rfl⟩, rfl, rfl, rfl, rfl, rfl⟩

/-- `dbA` with both hosts of the single target banned: exclusion empties the
eligible set. -/
def dbC8 : Db :=
  { dbA with
    corosync_resource_bans :=
      [ { id := 1, name := "ban1", cluster_id := 1, resource := "MGS_res",
          node := "node1", weight := 0, master_only := false },
        { id := 2, name := "ban2", cluster_id := 1, resource := "MGS_res",
          node := "node2", weight := 0, master_only := false } ],
    corosync_node_managed_hosts :=
      [ { node_name := "node1", cluster_id := 1, host_id := 1 },
        { node_name := "node2", cluster_id := 1, host_id := 2 } ] }

theorem c8_witness :
    rowA ∈ fsFilteredRows dbC8 (some "fsA") ∧
    rowA.cluster_hosts ≠ [] ∧
    (excludeBanned (get_banned_targets dbC8) rowA).cluster_hosts = [] ∧
    (∃ tr ∈ get_fs_target_resources dbC8 (some "fsA"),
      tr.cluster_id = rowA.cluster_id ∧ tr.resource_id = rowA.id ∧
      tr.name = rowA.name ∧ tr.uuid = rowA.uuid ∧
      tr.cluster_hosts =
        (excludeBanned (get_banned_targets dbC8) rowA).cluster_hosts) :=
  ⟨by decide, by decide, by decide,
    c8_empty_eligible_set_still_returned dbC8 (some "fsA") rowA
      (by decide) (by decide)⟩

/-- C9: every record returned by the `targets` resolver is a raw `target`
row with every field unchanged except `host_ids`, which is replaced by the
`cluster_hosts` of the first `TargetResource` of the same name when one
exists, and kept as is otherwise. -/
theorem c9_targets_host_ids_replacement_frame (db : Db)
    (limit offset : Option Nat) (dir : Option SortDir) (fs_name : Option String)
    (ex : Option Bool) (xs : List TargetRecord)
    (hok : queryTargets db limit offset dir fs_name ex = Except.ok xs) :
    ∀ y ∈ xs, ∃ x ∈ db.targets,
      y.id = x.id ∧ y.state = x.state ∧ y.name = x.name ∧
      y.active_host_id = x.active_host_id ∧ y.filesystems = x.filesystems ∧
      y.uuid = x.uuid ∧ y.mount_path = x.mount_path ∧
      y.dev_path = x.dev_path ∧ y.fs_type = x.fs_type ∧
      (match (get_fs_target_resources db none).find?
          (fun r => decide (r.name = x.name)) with
       | some r => y.host_ids = r.cluster_hosts
       | none => y.host_ids = x.host_ids) := by
  have hxs : xs =
      targetsPipeline db limit offset (dir.getD SortDir.asc) fs_name ex := by
    cases fs_name with
    | none =>
      simp only [queryTargets, Except.ok.injEq] at hok
      exact hok.symm
    | some fs =>
      simp only [queryTargets] at hok
      cases hfs : fs_id_by_name db fs with
      | error e =>
        rw [hfs] at hok
        exact absurd hok (by simp [Except.bind])
      | ok v =>
        rw [hfs] at hok
        simp only [Except.bind, Except.ok.injEq] at hok
        exact hok.symm
  subst hxs
  intro y hy
  simp only [targetsPipeline, List.mem_map] at hy
  obtain ⟨x, hx2, hyx⟩ := hy
  have hx1 : x ∈ targetsSqlStage db limit offset (dir.getD SortDir.asc) :=
    (List.mem_filter.mp (List.mem_filter.mp hx2).1).1
  have hxT : x ∈ db.targets := by
    have hsrt : x ∈ List.insertionSort (nameLe (dir.getD SortDir.asc))
        db.targets := by
      simp only [targetsSqlStage] at hx1
      cases limit with
      | some n => exact List.drop_subset _ _ (List.take_subset _ _ hx1)
      | none => exact List.drop_subset _ _ hx1
    exact (List.perm_insertionSort _ _).mem_iff.mp hsrt
  refine ⟨x, hxT, ?_⟩
  cases hfind : (get_fs_target_resources db none).find?
      (fun r => decide (r.name = x.name)) with
  | some r =>
    rw [hfind] at hyx
    subst hyx
    simp [hfind]
  | none =>
    rw [hfind] at hyx
    subst hyx
    simp [hfind]

/-- The record `QueryRoot::targets` returns for `dbA`: `host_ids` swapped to
the ban-aware `[2]`, everything else as stored. -/
def recordA : TargetRecord :=
  { id := 1, state := "mounted", name := "MGS", active_host_id := some 1,
    host_ids := [2], filesystems := ["fsA"], uuid := "u1",
    mount_path := some "/mnt/mgs", dev_path := none,
    fs_type := some "ldiskfs" }

theorem c9_witness :
    queryTargets dbA none none none (some "fsA") none =
      Except.ok [recordA] ∧
    (∀ y ∈ [recordA], ∃ x ∈ dbA.targets,
      y.id = x.id ∧ y.state = x.state ∧ y.name = x.name ∧
      y.active_host_id = x.active_host_id ∧ y.filesystems = x.filesystems ∧
      y.uuid = x.uuid ∧ y.mount_path = x.mount_path ∧
      y.dev_path = x.dev_path ∧ y.fs_type = x.fs_type ∧
      (match (get_fs_target_resources dbA none).find?
          (fun r => decide (r.name = x.name)) with
       | some r => y.host_ids = r.cluster_hosts
       | none => y.host_ids = x.host_ids)) :=
  ⟨rfl,
    c9_targets_host_ids_replacement_frame dbA none none none (some "fsA")
      none [recordA] rfl⟩

/-- C10: when the nid query yields no rows, `client_mount_source` does not
error and returns `:/fs` (empty colon-join), and `client_mount_command`
embeds that degenerate source. -/
theorem c10_degenerate_mount_source (db : Db) (fs : String)
    (h : mgsNidRows db fs = []) :
    queryClientMountSource db fs = Except.ok (":/" ++ fs) ∧
    queryClientMountCommand db fs =
      Except.ok ("mount -t lustre :/" ++ fs ++ " /mnt/" ++ fs) := by
  have hnids : mgsNids db fs = [] := by
    simp [mgsNids, sortedMgsNidPairs, h, List.insertionSort]
  have hsrc : client_mount_source db fs = ":/" ++ fs := by
    rw [client_mount_source, hnids]
    rw [show String.intercalate ":" ([] : List String) = "" from rfl]
    rw [String.append_assoc, String.empty_append]
  constructor
  · rw [queryClientMountSource, hsrc]
  · rw [queryClientMountCommand, hsrc]
    have hlit : "mount -t lustre " ++ (":/" ++ fs) = "mount -t lustre :/" ++ fs := by
      rw [← String.append_assoc]
      rw [show ("mount -t lustre " ++ ":/" : String) = "mount -t lustre :/" from
        by decide]
    rw [hlit]

/-- A snapshot with no rows at all. -/
def dbEmpty : Db :=
  { targets := [], corosync_resources := [],
    corosync_resource_managed_hosts := [], corosync_resource_bans := [],
    corosync_node_managed_hosts := [], managed_filesystems := [],
    lnets := [], nid_records := [], fqdns := fun _ => none }

theorem c10_witness :
    mgsNidRows dbEmpty "fs0" = [] ∧
    queryClientMountSource dbEmpty "fs0" = Except.ok (":/" ++ "fs0") ∧
    queryClientMountCommand dbEmpty "fs0" =
      Except.ok ("mount -t lustre :/" ++ "fs0" ++ " /mnt/" ++ "fs0") :=
  ⟨rfl, (c10_degenerate_mount_source dbEmpty "fs0" rfl).1,
    (c10_degenerate_mount_source dbEmpty "fs0" rfl).2⟩
